import Mathlib

/-!
Verification development for the statement-ingestion and transaction-normalization
pipeline of the ufincorp-colombia ledger application.

The TypeScript sources are shallowly embedded below:
* JS strings are Lean `String`; all character-level operations are implemented
  structurally over `List Char` so that every definition evaluates by `decide`/`rfl`.
* JS numbers are exact rationals `ℚ`; the value `NaN` (produced by `parseFloat` on
  non-numeric input) is modelled as `none` in `Option ℚ`.  The model omits
  exponent and `Infinity` forms of `parseFloat` input, which do not occur in the
  cleaned numeric fields handled by this pipeline.
* JS `undefined` is `none`; the JS `x || d` idiom (where both `undefined` and the
  empty string are falsy) is `jsOr`.
* Network effects (the AI classifier, the rule store, JSON parsing done by the
  runtime) are passed in as explicit oracle arguments.
-/

set_option maxRecDepth 8000

/-- Truthiness-based JS `x || d` for optional strings: `undefined` and `""` are falsy. -/
def jsOr (v : Option String) (d : String) : String :=
  match v with
  | none => d
  | some s => if s = "" then d else s

/-- JS `x || undefined`: keeps a string only when it is truthy (present and non-empty). -/
def jsOrOpt (v : Option String) : Option String :=
  match v with
  | none => none
  | some s => if s = "" then none else some s

/-- Numeric value of a digit list, most significant first (e.g. `['4','2'] ↦ 42`). -/
def digitsVal (ds : List Char) : Nat :=
  ds.foldl (fun acc c => 10 * acc + (c.toNat - 48)) 0

/-- Structural model of `String.toList`-level substring containment: JS `hay.includes(pat)`. -/
def containsSub (hay pat : List Char) : Bool :=
  match hay with
  | [] => pat.isEmpty
  | _ :: t => pat.isPrefixOf hay || containsSub t pat

/-- JS `hay.includes(pat)` on strings. -/
def strIncludes (hay pat : String) : Bool :=
  containsSub hay.toList pat.toList

/-- JS `String.prototype.toLowerCase` (ASCII, which covers every marker/keyword in the source). -/
def lowerStr (s : String) : String :=
  String.mk (s.toList.map Char.toLower)

/-- JS `String.prototype.toUpperCase` (ASCII, which covers every marker/keyword in the source). -/
def upperStr (s : String) : String :=
  String.mk (s.toList.map Char.toUpper)

/-- JS `s.endsWith(suff)`. -/
def endsWithStr (s suff : String) : Bool :=
  suff.toList.isSuffixOf s.toList

/-- Structural whitespace trim of a character list (JS `String.prototype.trim`). -/
def trimChars (cs : List Char) : List Char :=
  ((cs.dropWhile Char.isWhitespace).reverse.dropWhile Char.isWhitespace).reverse

/-- JS `s.trim()`. -/
def trimStr (s : String) : String :=
  String.mk (trimChars s.toList)

/-- Structural split of a character list on a separator character (JS `s.split(sep)` with
a one-character separator; the separators used by the pipeline are `\n`, `\t` and `|`). -/
def splitOnChar (sep : Char) : List Char → List (List Char)
  | [] => [[]]
  | c :: rest =>
      if c = sep then [] :: splitOnChar sep rest
      else
        match splitOnChar sep rest with
        | [] => [[c]]
        | h :: t => (c :: h) :: t

/-- JS `s.split(sep)` for a one-character separator, as strings. -/
def splitStr (sep : Char) (s : String) : List String :=
  (splitOnChar sep s.toList).map String.mk

/-- Core of the JS `parseFloat` model on a character list: optional sign, then digits,
then an optional fractional part.  Returns `none` exactly when `parseFloat` yields `NaN`
(no digit could be consumed).  Longest-valid-prefix semantics: trailing garbage such as
`"1-2"` or `"12.3.4"` is ignored after the first valid prefix, as in JS. -/
def parseFloatCore (cs : List Char) : Option ℚ :=
  let signAndRest : ℚ × List Char :=
    match cs with
    | '-' :: t => (-1, t)
    | '+' :: t => (1, t)
    | _ => (1, cs)
  let rest := signAndRest.2
  let intPart := rest.takeWhile Char.isDigit
  let rest2 := rest.dropWhile Char.isDigit
  let fracPart :=
    match rest2 with
    | '.' :: t => t.takeWhile Char.isDigit
    | _ => []
  if intPart.isEmpty && fracPart.isEmpty then none
  else
    some (signAndRest.1 *
      ((digitsVal intPart : ℚ) + (digitsVal fracPart : ℚ) / (10 : ℚ) ^ fracPart.length))

/-- JS `parseFloat(s)` (`none` models `NaN`).  Leading whitespace is skipped as in JS. -/
def jsParseFloat (s : String) : Option ℚ :=
  parseFloatCore (s.toList.dropWhile Char.isWhitespace)

/-- JS `parseInt(s)` restricted to base 10 (`none` models `NaN`). -/
def jsParseInt (s : String) : Option Int :=
  let cs := s.toList.dropWhile Char.isWhitespace
  let signAndRest : Int × List Char :=
    match cs with
    | '-' :: t => (-1, t)
    | '+' :: t => (1, t)
    | _ => (1, cs)
  let ds := signAndRest.2.takeWhile Char.isDigit
  if ds.isEmpty then none else some (signAndRest.1 * (digitsVal ds : Int))

/-- JS array indexing `fields[i]` where `i` may be a non-number (`none` models `NaN`):
out-of-range and `NaN` indices give `undefined`. -/
def jsIndex (fields : List String) (i : Option Int) : Option String :=
  match i with
  | none => none
  | some k => if k < 0 then none else fields.get? k.toNat

/-- The amount-cleaning step of the parse-transactions extractor:
`montoStr.replace(/[^0-9.-]/g, "")`. -/
def cleanAmount (s : String) : String :=
  String.mk (s.toList.filter (fun c => c.isDigit || c = '.' || c = '-'))

/-- Quote-aware field split shared by `parseLine` (parse-transactions) and
`parseCSVLine` (process-transactions): toggling quote state on `"`, splitting on the
separator only outside quotes, trimming each field. -/
def splitQuotedAux (sep : Char) : List Char → Bool → List Char → List String
  | [], _, current => [String.mk (trimChars current.reverse)]
  | c :: rest, inQuotes, current =>
      if c = '\"' then splitQuotedAux sep rest (!inQuotes) current
      else if c = sep && !inQuotes then
        String.mk (trimChars current.reverse) :: splitQuotedAux sep rest inQuotes []
      else splitQuotedAux sep rest inQuotes (c :: current)

/-- Quote-aware split of one line on a separator (the source uses it with `','`). -/
def splitQuoted (sep : Char) (line : String) : List String :=
  splitQuotedAux sep line.toList false []

/-- Line splitting common to both serve handlers:
`fileContent.split("\n").filter(l => l.trim())`. -/
def splitLines (content : String) : List String :=
  (splitStr '\n' content).filter (fun l => trimStr l ≠ "")

/-- The fixed currency table `FX_RATES` defined identically in parse-transactions,
process-transactions and TransactionPreview. -/
def FX_RATES (code : String) : Option ℚ :=
  if code = "USD" then some 4100
  else if code = "AED" then some 1120
  else if code = "COP" then some 1
  else none

/-- JS `FX_RATES[moneda] || 1`: an absent currency defaults to rate 1 (a present rate of 0
would also be falsy, but the table contains no zero rate). -/
def rateFor (moneda : String) : ℚ :=
  match FX_RATES moneda with
  | some r => if r = 0 then 1 else r
  | none => 1

/-- Transaction direction, the `"in" | "out"` union type of the sources. -/
inductive Direction where
  | din
  | dout
  deriving DecidableEq, Repr

namespace ParseTx

/-!
Embedding of the parse-transactions edge function (the delimited-text extractor with
per-row classification) and of its `classifyTransaction` helper.
-/

/-- The column-structure object computed upstream by map-columns and passed to the
parse-transactions handler.  `columnMapping` carries the JS object as an ordered list of
(key, semantic-field) pairs. -/
structure Mapping where
  separator : String
  hasHeader : Bool
  columnMapping : List (String × String)
  defaultCurrency : Option String

/-- Source `parseLine`: comma-separated lines get the quote-aware split, any other
separator is a plain split with per-field trim. -/
def parseLine (line : String) (separator : String) : List String :=
  if separator = "," then splitQuoted ',' line
  else
    match separator.toList with
    | [sep] => (splitStr sep line).map trimStr
    | _ => [trimStr line]

/-- Source `Object.keys(colMap).find(k => colMap[k] === field)`. -/
def findKey (colMap : List (String × String)) (field : String) : Option String :=
  (colMap.find? (fun p => p.2 = field)).map Prod.fst

/-- Source `fields[parseInt(Object.keys(colMap).find(k => colMap[k] === field) || dflKey)]`. -/
def lookupField (fields : List String) (colMap : List (String × String))
    (field : String) (dflKey : String) : Option String :=
  jsIndex fields (jsParseInt (jsOr (findKey colMap field) dflKey))

/-- One extracted candidate transaction, before classification. -/
structure CandidateTx where
  fecha : String
  descripcion : String
  monto_original : ℚ
  moneda : String
  tipo : Direction
  referencia : Option String
  deriving DecidableEq, Repr

/-- Source direction logic: default `in` when the parsed amount is positive, else `out`,
overridden when the type field text contains income/expense vocabulary. -/
def tipoFromStr (montoOriginal : ℚ) (tipoStr : String) : Direction :=
  let dfl := if 0 < montoOriginal then Direction.din else Direction.dout
  if tipoStr = "" then dfl
  else
    let tl := lowerStr tipoStr
    if strIncludes tl "in" || strIncludes tl "ingreso" || strIncludes tl "credito" then
      Direction.din
    else if strIncludes tl "out" || strIncludes tl "egreso" || strIncludes tl "debito" then
      Direction.dout
    else dfl

/-- One iteration of the parse-transactions row loop up to (not including) classification:
field resolution through the column mapping, amount cleaning and parsing, the `isNaN`
skip, direction resolution and `Math.abs` on the stored amount.  `today` stands for
`new Date().toISOString().split("T")[0]`. -/
def extractRow (today : String) (m : Mapping) (line : String) : Option CandidateTx :=
  let fields := parseLine line m.separator
  let colMap := m.columnMapping
  let fecha := jsOr (lookupField fields colMap "fecha" "0") today
  let descripcion := jsOr (lookupField fields colMap "descripcion" "1") "Sin descripción"
  let montoStr := jsOr (lookupField fields colMap "monto" "2") "0"
  let moneda := jsOr (lookupField fields colMap "moneda" "-1") (jsOr m.defaultCurrency "COP")
  let tipoStr := jsOr (lookupField fields colMap "tipo" "-1") ""
  let referencia := jsOrOpt (lookupField fields colMap "referencia" "-1")
  match jsParseFloat (cleanAmount montoStr) with
  | none => none
  | some q =>
      some { fecha := fecha, descripcion := descripcion, monto_original := |q|,
             moneda := moneda, tipo := tipoFromStr q tipoStr, referencia := referencia }

/-- A stored categorization rule (the `categorization_rules` table row as the classifier
reads it). -/
structure Rule where
  keyword : String
  categoria : String
  contrapartida : Option String
  priority : Int
  active : Bool
  deriving DecidableEq, Repr

/-- Source rule test: `upperDesc.includes(rule.keyword.toUpperCase())`. -/
def ruleMatches (descripcion : String) (r : Rule) : Bool :=
  strIncludes (upperStr descripcion) (upperStr r.keyword)

/-- The user-rule tier of `classifyTransaction`: skipped when the fetched list is empty,
otherwise the first matching rule in list order wins, with `contrapartida || "UNKNOWN"`. -/
def classifyByRules (descripcion : String) (rules : List Rule) : Option (String × String) :=
  if rules.isEmpty then none
  else (rules.find? (ruleMatches descripcion)).map
    (fun r => (r.categoria, jsOr r.contrapartida "UNKNOWN"))

/-- Descending-priority insertion used to model the rule-store query ordering. -/
def insertByPriority (r : Rule) : List Rule → List Rule
  | [] => [r]
  | x :: xs => if x.priority < r.priority then r :: x :: xs else x :: insertByPriority r xs

/-- Sort a rule list by descending priority. -/
def sortByPriorityDesc : List Rule → List Rule
  | [] => []
  | x :: xs => insertByPriority x (sortByPriorityDesc xs)

/-- Model of the rule-store query issued by `classifyTransaction`:
`.eq("active", true).order("priority", { ascending: false })` over the user's stored
rules, i.e. the active rules sorted by descending priority. -/
def fetchRules (stored : List Rule) : List Rule :=
  sortByPriorityDesc (stored.filter (fun r => r.active))

/-- Outcome of the external AI classification call, as observed by the caller:
a non-ok HTTP response, an ok response whose body fails `JSON.parse` (which throws), or
an ok response parsed into category and counterparty. -/
inductive AiOutcome where
  | notOk
  | okMalformed
  | okParsed (categoria contrapartida : String)
  deriving DecidableEq, Repr

/-- Source `classifyTransaction`: user rules first (fetched sorted by descending
priority); on no match, the AI call; a non-ok response returns the terminal
`{OTHER, UNKNOWN}`; an ok-but-malformed body throws out of the function
(`Except.error`). -/
def classifyTransaction (descripcion : String) (stored : List Rule) (ai : AiOutcome) :
    Except Unit (String × String) :=
  match classifyByRules descripcion (fetchRules stored) with
  | some res => Except.ok res
  | none =>
      match ai with
      | AiOutcome.okParsed c p => Except.ok (c, p)
      | AiOutcome.notOk => Except.ok ("OTHER", "UNKNOWN")
      | AiOutcome.okMalformed => Except.error ()

/-- The transaction record pushed by the parse-transactions row loop. -/
structure TransactionData where
  fecha : String
  descripcion : String
  monto_original : ℚ
  moneda : String
  tipo : Direction
  categoria : Option String
  contrapartida : Option String
  referencia : Option String
  deriving DecidableEq, Repr

/-- The data lines the row loop ranges over: non-blank lines, minus the header when the
mapping declares one. -/
def dataLines (m : Mapping) (content : String) : List String :=
  (splitLines content).drop (if m.hasHeader then 1 else 0)

/-- One full iteration of the row loop: extraction, then classification; a thrown
classification error is caught by the per-line `catch` and the line is skipped. -/
def processRow (today : String) (m : Mapping) (stored : List Rule)
    (ai : String → AiOutcome) (line : String) : Option TransactionData :=
  match extractRow today m line with
  | none => none
  | some c =>
      match classifyTransaction c.descripcion stored (ai c.descripcion) with
      | Except.error _ => none
      | Except.ok res =>
          some { fecha := c.fecha, descripcion := c.descripcion,
                 monto_original := c.monto_original, moneda := c.moneda, tipo := c.tipo,
                 categoria := some res.1, contrapartida := some res.2,
                 referencia := c.referencia }

/-- The parse-transactions serve handler body: every data line through the row loop, in
input order, collecting the successfully parsed and classified rows. -/
def parseTransactions (today : String) (m : Mapping) (stored : List Rule)
    (ai : String → AiOutcome) (content : String) : List TransactionData :=
  (dataLines m content).filterMap (processRow today m stored ai)

end ParseTx

namespace ProcessTx

/-!
Embedding of the process-transactions edge function: the static keyword classifier,
`normalizeTransaction`, and the serve-handler line loop.
-/

/-- The built-in static keyword table `CLASSIFICATION_RULES`, in source order:
(keyword, categoria, contrapartida). -/
def CLASSIFICATION_RULES : List (String × String × String) :=
  [("COBRO DE FLETE", "FULFILLMENT", "COORDINADORA"),
   ("ENTRADA POR GANANCIA", "REV_DROPI_COD", "DROPI_PLATFORM"),
   ("RETIRO DE SALDO", "WITHDRAWALS", "DROPICARTERA"),
   ("CONSO", "WITHDRAWALS", "DROPICARTERA"),
   ("FACEBOOK", "ADS_FACEBOOK", "FACEBOOK"),
   ("META", "ADS_FACEBOOK", "FACEBOOK"),
   ("OPENAI", "SOFTWARE_TOOLS", "OPENAI"),
   ("CHATGPT", "SOFTWARE_TOOLS", "OPENAI"),
   ("TRANSFERENCIA DE WALLET", "INTERNAL_TRANSFER", "SELF"),
   ("MERCURY", "INTERNAL_TRANSFER", "MERCURY"),
   ("SLASH", "INTERNAL_TRANSFER", "SLASH")]

/-- Source `classifyTransaction` of process-transactions: first static-table keyword
contained in the uppercased description wins, else the terminal `{OTHER, UNKNOWN}`. -/
def classifyTransaction (descripcion : String) : String × String :=
  match CLASSIFICATION_RULES.find? (fun e => strIncludes (upperStr descripcion) e.1) with
  | some e => (e.2.1, e.2.2)
  | none => ("OTHER", "UNKNOWN")

/-- The raw per-line object consumed by `normalizeTransaction` (only the fields the
function reads).  In the CSV path the values come from `parseCSVLine`; in the JSON path
from `JSON.parse`, with numeric JSON values modelled by their decimal strings. -/
structure RawData where
  fecha : Option String
  descripcion : Option String
  monto_original : Option String
  monto : Option String
  moneda : Option String
  tipo : Option String
  referencia : Option String
  deriving Repr

/-- The record process-transactions inserts into `transactions_unified`.
`monto_original`/`monto_cop` are `Option ℚ` with `none` modelling `NaN`. -/
structure TransactionData where
  fecha : String
  descripcion : String
  cuenta : String
  tipo : String
  monto_original : Option ℚ
  moneda : String
  monto_cop : Option ℚ
  categoria : Option String
  contrapartida : Option String
  referencia : Option String
  notas : Option String
  confidence : ℚ
  reason : String
  user_id : String
  deriving DecidableEq, Repr

/-- Source `normalizeTransaction`: static classification, currency defaulting, rate
lookup with `|| 1` fallback, `montoCOP = montoOriginal * rate` (no rounding),
`Math.abs` on both stored amounts, and the FX note attached whenever the transaction
currency differs from COP. -/
def normalizeTransaction (today : String) (rawData : RawData) (cuenta userId : String) :
    TransactionData :=
  let classification := classifyTransaction (jsOr rawData.descripcion "")
  let moneda := jsOr rawData.moneda "COP"
  let montoOriginal := jsParseFloat (jsOr rawData.monto_original (jsOr rawData.monto "0"))
  let rate := rateFor moneda
  let montoCOP := montoOriginal.map (fun q => q * rate)
  { fecha := jsOr rawData.fecha today,
    descripcion := jsOr rawData.descripcion "Sin descripción",
    cuenta := cuenta,
    tipo := jsOr rawData.tipo
      (match montoCOP with
       | some q => if 0 < q then "in" else "out"
       | none => "out"),
    monto_original := montoOriginal.map (fun q => |q|),
    moneda := moneda,
    monto_cop := montoCOP.map (fun q => |q|),
    categoria := some classification.1,
    contrapartida := some classification.2,
    referencia := jsOrOpt rawData.referencia,
    notas := if moneda ≠ "COP" then some ("FX: " ++ moneda ++ " → COP @ " ++ toString rate)
             else none,
    confidence := 85 / 100,
    reason := "Auto-classified based on keyword matching",
    user_id := userId }

/-- Source `parseCSVLine` (same quote-toggling comma split as parse-transactions). -/
def parseCSVLine (line : String) : List String :=
  splitQuoted ',' line

/-- The CSV branch of the line loop: `{fecha: fields[0], descripcion: fields[1],
monto_original: fields[2], moneda: fields[3] || "COP", tipo: fields[4] || "in"}`. -/
def rawFromCsvFields (fields : List String) : RawData :=
  { fecha := fields.get? 0,
    descripcion := fields.get? 1,
    monto_original := fields.get? 2,
    monto := none,
    moneda := some (jsOr (fields.get? 3) "COP"),
    tipo := some (jsOr (fields.get? 4) "in"),
    referencia := none }

/-- Source header decision: `fileName.toLowerCase().endsWith(".csv") ? 1 : 0`. -/
def csvName (fileName : String) : Bool :=
  endsWithStr (lowerStr fileName) ".csv"

/-- One iteration of the process-transactions line loop: in the CSV path every line is
normalized (nothing in the body throws); in the JSON path a line whose `JSON.parse`
fails (`jsonParse` returns `none`) is skipped.  `jsonParse` stands for the runtime JSON
parser. -/
def processLine (today : String) (jsonParse : String → Option RawData)
    (fileName cuenta userId : String) (line : String) : Option TransactionData :=
  if csvName fileName then
    some (normalizeTransaction today (rawFromCsvFields (parseCSVLine line)) cuenta userId)
  else
    (jsonParse line).map (fun raw => normalizeTransaction today raw cuenta userId)

/-- The process-transactions serve handler body up to the bulk insert: non-blank lines,
the first one dropped exactly when the file name ends in `.csv`, each remaining line
through `processLine` in order. -/
def processTransactions (today : String) (jsonParse : String → Option RawData)
    (fileContent fileName cuenta userId : String) : List TransactionData :=
  let lines := splitLines fileContent
  let startIndex := if csvName fileName then 1 else 0
  (lines.drop startIndex).filterMap (processLine today jsonParse fileName cuenta userId)

end ProcessTx

namespace Dropi

/-!
Embedding of the deterministic parse-dropi-pdf edge function.  The source scans the
whole content with one global regex; the model tokenizes the content on whitespace and
matches the same shape token-wise (date, non-pipe description up to the first
operation-type token, status, signed dollar amount, balance).  The scan model restarts
after the date token of a successful match where the source regex restarts after the
whole match; the set of inputs with zero matches is unaffected.
-/

/-- Source vendor check: the lowercased content contains one of the Dropi markers. -/
def isDropi (fileContent : String) : Bool :=
  strIncludes (lowerStr fileContent) "dropi" ||
  strIncludes (lowerStr fileContent) "recarga topup" ||
  strIncludes (lowerStr fileContent) "movimientos y transacciones"

/-- The `\d{2}/\d{2}/\d{4}` date token of the transaction pattern. -/
def isDateToken (s : String) : Bool :=
  match s.toList with
  | [d1, d2, '/', m1, m2, '/', y1, y2, y3, y4] =>
      d1.isDigit && d2.isDigit && m1.isDigit && m2.isDigit &&
      y1.isDigit && y2.isDigit && y3.isDigit && y4.isDigit
  | _ => false

/-- The `(Débito|Crédito)` operation-type token. -/
def isOpToken (s : String) : Bool :=
  s = "Débito" || s = "Crédito"

/-- The `(Aprobada|Rechazada|Pendiente)` status token. -/
def isEstadoToken (s : String) : Bool :=
  s = "Aprobada" || s = "Rechazada" || s = "Pendiente"

/-- Body of a dollar amount after the `$`: `[\d,]+\.?\d*` matched to the end. -/
def amountBody (cs : List Char) : Bool :=
  let core := cs.takeWhile (fun c => c.isDigit || c = ',')
  let rest := cs.dropWhile (fun c => c.isDigit || c = ',')
  !core.isEmpty &&
    (match rest with
     | [] => true
     | '.' :: t => t.all Char.isDigit
     | _ => false)

/-- The `-?\$[\d,]+\.?\d*` signed amount token. -/
def isAmountToken (s : String) : Bool :=
  match s.toList with
  | '-' :: '$' :: rest => amountBody rest
  | '$' :: rest => amountBody rest
  | _ => false

/-- The `\$?([\d,]+\.?\d*)` balance token. -/
def isBalanceToken (s : String) : Bool :=
  match s.toList with
  | '$' :: rest => amountBody rest
  | cs => amountBody cs

/-- The balance capture group: the token without its optional leading `$`. -/
def balanceCapture (s : String) : String :=
  match s.toList with
  | '$' :: t => String.mk t
  | _ => s

/-- Source `valorStr.replace(/[$,]/g, '')`. -/
def stripDollarCommas (s : String) : String :=
  String.mk (s.toList.filter (fun c => c ≠ '$' && c ≠ ','))

/-- Source `saldoStr.replace(/,/g, '')`. -/
def stripCommas (s : String) : String :=
  String.mk (s.toList.filter (fun c => c ≠ ','))

/-- One transaction record pushed by the parse-dropi-pdf loop. -/
structure DropiTx where
  fecha : String
  descripcion : String
  monto_original : Option ℚ
  moneda : String
  tipo : String
  saldo : Option ℚ
  estado : String
  deriving DecidableEq, Repr

/-- Join description tokens back with single spaces (the model's rendering of the raw
`[^\|]+?` capture). -/
def joinSpace : List String → String
  | [] => ""
  | [s] => s
  | s :: rest => s ++ " " ++ joinSpace rest

/-- Source date rewrite `DD/MM/YYYY` to `YYYY-MM-DD`. -/
def mkFecha (dateStr : String) : String :=
  match splitStr '/' dateStr with
  | [day, month, year] => year ++ "-" ++ month ++ "-" ++ day
  | _ => dateStr

/-- Build one record exactly as the loop body does: cleaned amount, `Math.abs`, the
credit-or-unsigned direction rule, and the cleaned balance. -/
def mkTx (dateTok : String) (descToks : List String)
    (opTok estadoTok valorTok saldoTok : String) : DropiTx :=
  let cleanValor := stripDollarCommas valorTok
  { fecha := mkFecha dateTok,
    descripcion := trimStr (joinSpace descToks),
    monto_original := (jsParseFloat cleanValor).map (fun q => |q|),
    moneda := "COP",
    tipo := if opTok = "Crédito" ||
               !(match cleanValor.toList with | '-' :: _ => true | _ => false)
            then "in" else "out",
    saldo := jsParseFloat (stripCommas (balanceCapture saldoTok)),
    estado := estadoTok }

/-- Collect description tokens up to the first operation-type token. -/
def splitAtOp : List String → Option (List String × String × List String)
  | [] => none
  | t :: rest =>
      if isOpToken t then some ([], t, rest)
      else
        match splitAtOp rest with
        | none => none
        | some (d, op, r) => some (t :: d, op, r)

/-- Try to match one full transaction pattern starting at the current token. -/
def matchAt : List String → Option (DropiTx × List String)
  | [] => none
  | t :: rest =>
      if isDateToken t then
        match splitAtOp rest with
        | none => none
        | some (descToks, opTok, rest2) =>
            if descToks.isEmpty || descToks.any (fun tok => tok.toList.contains '|') then
              none
            else
              match rest2 with
              | estadoTok :: valorTok :: saldoTok :: rest3 =>
                  if isEstadoToken estadoTok && isAmountToken valorTok &&
                     isBalanceToken saldoTok then
                    some (mkTx t descToks opTok estadoTok valorTok saldoTok, rest3)
                  else none
              | _ => none
      else none

/-- Fueled scan over the token stream (the fuel is instantiated with the token count,
which bounds the number of scan steps). -/
def scanTx : Nat → List String → List DropiTx
  | 0, _ => []
  | _ + 1, [] => []
  | fuel + 1, t :: rest =>
      match matchAt (t :: rest) with
      | some (tx, _) => tx :: scanTx fuel rest
      | none => scanTx fuel rest

/-- Whitespace tokenization of the scanned content. -/
def tokensAux : List Char → List Char → List String
  | [], current => if current.isEmpty then [] else [String.mk current.reverse]
  | c :: rest, current =>
      if c.isWhitespace then
        if current.isEmpty then tokensAux rest []
        else String.mk current.reverse :: tokensAux rest []
      else tokensAux rest (c :: current)

/-- Whitespace tokens of the content. -/
def tokens (content : String) : List String :=
  tokensAux content.toList []

/-- All transactions the pattern scan extracts from the content. -/
def dropiTransactions (fileContent : String) : List DropiTx :=
  scanTx (tokens fileContent).length (tokens fileContent)

/-- The parse-dropi-pdf serve handler: non-Dropi content is rejected; an empty match set
is rejected with the zero-transactions error; otherwise the match list is returned. -/
def parseDropiPdf (fileContent : String) : Except String (List DropiTx) :=
  if !(isDropi fileContent) then
    Except.error "Este no parece ser un extracto de Dropi"
  else
    let transactions := dropiTransactions fileContent
    if transactions.length = 0 then
      Except.error "No se encontraron transacciones en el formato esperado de Dropi"
    else
      Except.ok transactions

end Dropi

namespace Preview

/-!
Embedding of the TransactionPreview review buffer: the row type, per-row edit
(`handleEdit`), per-row removal (`handleRemove`), the `handleSave` record mapping, and
the save-button gating.
-/

/-- The `Transaction` row shape held in the preview buffer. -/
structure Transaction where
  fecha : String
  descripcion : String
  monto_original : Option ℚ
  moneda : String
  tipo : String
  categoria : Option String
  contrapartida : Option String
  referencia : Option String
  deriving DecidableEq, Repr

/-- The editable field names (`handleEdit`'s dynamic `[field]: value` key). -/
inductive TxField where
  | fecha
  | descripcion
  | monto_original
  | moneda
  | tipo
  | categoria
  | contrapartida
  | referencia
  deriving DecidableEq, Repr

/-- Value type carried by each editable field. -/
def FieldTy : TxField → Type
  | TxField.fecha => String
  | TxField.descripcion => String
  | TxField.monto_original => Option ℚ
  | TxField.moneda => String
  | TxField.tipo => String
  | TxField.categoria => Option String
  | TxField.contrapartida => Option String
  | TxField.referencia => Option String

/-- Read one field of a row. -/
def getField (t : Transaction) : (f : TxField) → FieldTy f
  | TxField.fecha => t.fecha
  | TxField.descripcion => t.descripcion
  | TxField.monto_original => t.monto_original
  | TxField.moneda => t.moneda
  | TxField.tipo => t.tipo
  | TxField.categoria => t.categoria
  | TxField.contrapartida => t.contrapartida
  | TxField.referencia => t.referencia

/-- The spread-update `{...row, [field]: value}` of `handleEdit`. -/
def setField (t : Transaction) : (f : TxField) → FieldTy f → Transaction
  | TxField.fecha, v => { t with fecha := v }
  | TxField.descripcion, v => { t with descripcion := v }
  | TxField.monto_original, v => { t with monto_original := v }
  | TxField.moneda, v => { t with moneda := v }
  | TxField.tipo, v => { t with tipo := v }
  | TxField.categoria, v => { t with categoria := v }
  | TxField.contrapartida, v => { t with contrapartida := v }
  | TxField.referencia, v => { t with referencia := v }

/-- Source `handleEdit`: copy the buffer and replace the row at `index` by its
field-updated copy (an out-of-range index leaves the model buffer unchanged). -/
def handleEdit (buffer : List Transaction) (index : Nat) (f : TxField) (v : FieldTy f) :
    List Transaction :=
  match buffer, index with
  | [], _ => []
  | t :: rest, 0 => setField t f v :: rest
  | t :: rest, n + 1 => t :: handleEdit rest n f v

/-- Source `handleRemove`: `editedTransactions.filter((_, i) => i !== index)`. -/
def handleRemove (buffer : List Transaction) (index : Nat) : List Transaction :=
  (buffer.enum.filter (fun p => p.1 != index)).map Prod.snd

/-- The persisted record built per row inside `handleSave`. -/
structure DbRow where
  fecha : String
  descripcion : String
  cuenta : String
  account_id : String
  tipo : String
  monto_original : Option ℚ
  moneda : String
  monto_cop : Option ℚ
  categoria : String
  contrapartida : String
  referencia : Option String
  notas : Option String
  confidence : ℚ
  reason : String
  user_id : String
  deriving DecidableEq, Repr

/-- The `dbTransactions` mapping of `handleSave`: `account?.nombre || "Unknown"` for the
account label, `monto_cop = monto_original * (FX_RATES[moneda] || 1)` (no rounding, no
absolute value), defaulted category/counterparty, and the FX note interpolating the raw
table lookup. -/
def dbTransaction (accountName : Option String) (accountId userId : String)
    (t : Transaction) : DbRow :=
  { fecha := t.fecha,
    descripcion := t.descripcion,
    cuenta := jsOr accountName "Unknown",
    account_id := accountId,
    tipo := t.tipo,
    monto_original := t.monto_original,
    moneda := t.moneda,
    monto_cop := t.monto_original.map (fun q => q * rateFor t.moneda),
    categoria := jsOr t.categoria "OTHER",
    contrapartida := jsOr t.contrapartida "UNKNOWN",
    referencia := jsOrOpt t.referencia,
    notas := if t.moneda ≠ "COP" then
        some ("FX: " ++ t.moneda ++ " → COP @ " ++
          (match FX_RATES t.moneda with
           | some r => toString r
           | none => "undefined"))
      else none,
    confidence := 85 / 100,
    reason := "Manual review and approval",
    user_id := userId }

/-- The calls `handleSave` issues against the hosted store, in order. -/
inductive StoreCall where
  | getUser
  | selectAccount (accountId : String)
  | insertRows (rows : List DbRow)
  deriving DecidableEq, Repr

/-- The save-button guard: `disabled={loading || editedTransactions.length === 0}`. -/
def saveDisabled (loading : Bool) (buffer : List Transaction) : Bool :=
  loading || buffer.length == 0

/-- The store traffic of one `handleSave` run: auth lookup, account-name lookup, then
the single bulk insert of the mapped buffer. -/
def handleSaveCalls (buffer : List Transaction)
    (accountName : Option String) (accountId userId : String) : List StoreCall :=
  [StoreCall.getUser, StoreCall.selectAccount accountId,
   StoreCall.insertRows (buffer.map (dbTransaction accountName accountId userId))]

/-- Clicking the save button: a disabled button does not invoke `handleSave`, so no
store call is made; an enabled one runs `handleSave`. -/
def clickSave (loading : Bool) (buffer : List Transaction)
    (accountName : Option String) (accountId userId : String) : List StoreCall :=
  if saveDisabled loading buffer then []
  else handleSaveCalls buffer accountName accountId userId

/-- The preview-rendering gate of the uploading component:
`if (parsedTransactions && accountId)` — the review buffer (and with it the save
button) is reachable only when a parse result exists and an account is selected. -/
def previewShown (parsedTransactions : Option (List Transaction)) (accountId : String) :
    Bool :=
  match parsedTransactions with
  | none => false
  | some _ => accountId ≠ ""

end Preview

/-!
Concrete fixtures used by the witness theorems.
-/

/-- Fixture: a five-column comma mapping with a header, as map-columns produces. -/
def mapA : ParseTx.Mapping :=
  { separator := ",", hasHeader := true,
    columnMapping :=
      [("0", "fecha"), ("1", "descripcion"), ("2", "monto"), ("3", "moneda"), ("4", "tipo")],
    defaultCurrency := some "COP" }

/-- Fixture: an AI oracle that always answers with a non-ok response. -/
def aiQuiet : String → ParseTx.AiOutcome :=
  fun _ => ParseTx.AiOutcome.notOk

/-- Fixture: a high-priority matching rule. -/
def ruleHi : ParseTx.Rule :=
  { keyword := "FACEBOOK", categoria := "ADS_FACEBOOK", contrapartida := some "FACEBOOK",
    priority := 10, active := true }

/-- Fixture: a low-priority rule that also matches the same description. -/
def ruleLo : ParseTx.Rule :=
  { keyword := "PAGO", categoria := "OPERATIONAL", contrapartida := none,
    priority := 1, active := true }

/-- Fixture: a review-buffer row in the reporting currency. -/
def txA : Preview.Transaction :=
  { fecha := "2025-01-05", descripcion := "PAGO FACEBOOK ADS", monto_original := some 150000,
    moneda := "COP", tipo := "out", categoria := some "ADS_FACEBOOK",
    contrapartida := some "FACEBOOK", referencia := none }

/-- Fixture: a second review-buffer row. -/
def txB : Preview.Transaction :=
  { fecha := "2025-01-06", descripcion := "ENTRADA POR GANANCIA", monto_original := some 99000,
    moneda := "COP", tipo := "in", categoria := some "REV_DROPI_COD",
    contrapartida := some "DROPI_PLATFORM", referencia := some "G-1" }

/-- Fixture: the exact rational value `parseFloat` assigns to the field `"100"` in the
model (sign 1, integer digits `100`, empty fraction). -/
def v100 : ℚ :=
  (1 : ℚ) * ((digitsVal ['1', '0', '0'] : ℚ) + (digitsVal [] : ℚ) / (10 : ℚ) ^ (0 : Nat))

/-- Fixture: the transaction the parse-transactions model extracts from the line
`"2025-01-05,Pago,100,COP,in"` under `mapA`, empty rule set and the quiet oracle. -/
def tx100 : ParseTx.TransactionData :=
  { fecha := "2025-01-05", descripcion := "Pago", monto_original := |v100|,
    moneda := "COP", tipo := Direction.din, categoria := some "OTHER",
    contrapartida := some "UNKNOWN", referencia := none }

/-!
Helper lemmas shared by the claim theorems.
-/

theorem filterMap_map_some_of_isSome {α β : Type} (f : α → Option β) :
    ∀ L : List α, (∀ l ∈ L, (f l).isSome) → List.map some (L.filterMap f) = L.map f
  | [], _ => rfl
  | a :: L, h => by
      rcases Option.isSome_iff_exists.mp (h a (List.mem_cons_self a L)) with ⟨b, hb⟩
      simp only [List.filterMap_cons, hb, List.map_cons]
      rw [filterMap_map_some_of_isSome f L (fun l hl => h l (List.mem_cons_of_mem a hl))]

theorem filterMap_some_comp {α β : Type} (g : α → β) :
    ∀ L : List α, L.filterMap (fun a => some (g a)) = L.map g
  | [] => rfl
  | a :: L => by
      simp only [List.filterMap_cons, List.map_cons]
      exact congrArg (g a :: ·) (filterMap_some_comp g L)

theorem rateFor_pos (moneda : String) : 0 < rateFor moneda := by
  rcases h : FX_RATES moneda with _ | r
  · simp [rateFor, h]
  · have hr : r = 4100 ∨ r = 1120 ∨ r = 1 := by
      unfold FX_RATES at h
      split_ifs at h <;> simp_all
    simp only [rateFor, h]
    rcases hr with rfl | rfl | rfl <;> norm_num

theorem classify_ok_of_not_malformed (descripcion : String) (stored : List ParseTx.Rule)
    (ai : ParseTx.AiOutcome) (hai : ai ≠ ParseTx.AiOutcome.okMalformed) :
    ∃ res, ParseTx.classifyTransaction descripcion stored ai = Except.ok res := by
  unfold ParseTx.classifyTransaction
  rcases h : ParseTx.classifyByRules descripcion (ParseTx.fetchRules stored) with _ | res
  · cases ai with
    | notOk => exact ⟨("OTHER", "UNKNOWN"), rfl⟩
    | okMalformed => exact absurd rfl hai
    | okParsed c p => exact ⟨(c, p), rfl⟩
  · exact ⟨res, rfl⟩

theorem processRow_isSome (today : String) (m : ParseTx.Mapping) (stored : List ParseTx.Rule)
    (ai : String → ParseTx.AiOutcome) (l : String)
    (hai : ∀ d, ai d ≠ ParseTx.AiOutcome.okMalformed)
    (h : (ParseTx.extractRow today m l).isSome = true) :
    (ParseTx.processRow today m stored ai l).isSome = true := by
  rcases Option.isSome_iff_exists.mp h with ⟨c, hc⟩
  rcases classify_ok_of_not_malformed c.descripcion stored (ai c.descripcion) (hai _)
    with ⟨res, hres⟩
  simp [ParseTx.processRow, hc, hres]

theorem processRow_eq_none (today : String) (m : ParseTx.Mapping) (stored : List ParseTx.Rule)
    (ai : String → ParseTx.AiOutcome) (l : String) (h : ParseTx.extractRow today m l = none) :
    ParseTx.processRow today m stored ai l = none := by
  simp [ParseTx.processRow, h]

theorem mem_insertByPriority (r x : ParseTx.Rule) :
    ∀ l : List ParseTx.Rule, x ∈ ParseTx.insertByPriority r l ↔ x = r ∨ x ∈ l
  | [] => by simp [ParseTx.insertByPriority]
  | y :: l => by
      by_cases h : y.priority < r.priority
      · simp only [ParseTx.insertByPriority, if_pos h, List.mem_cons]
      · simp only [ParseTx.insertByPriority, if_neg h, List.mem_cons,
          mem_insertByPriority r x l]
        tauto

theorem mem_sortByPriorityDesc (x : ParseTx.Rule) :
    ∀ l : List ParseTx.Rule, x ∈ ParseTx.sortByPriorityDesc l ↔ x ∈ l
  | [] => by simp [ParseTx.sortByPriorityDesc]
  | y :: l => by
      simp only [ParseTx.sortByPriorityDesc, mem_insertByPriority, List.mem_cons,
        mem_sortByPriorityDesc x l]

theorem pairwise_insertByPriority (r : ParseTx.Rule) :
    ∀ l : List ParseTx.Rule, l.Pairwise (fun a b => b.priority ≤ a.priority) →
      (ParseTx.insertByPriority r l).Pairwise (fun a b => b.priority ≤ a.priority)
  | [], _ => by simp [ParseTx.insertByPriority]
  | y :: l, h => by
      rcases List.pairwise_cons.mp h with ⟨hy, hl⟩
      by_cases hp : y.priority < r.priority
      · simp only [ParseTx.insertByPriority, if_pos hp]
        refine List.pairwise_cons.mpr ⟨?_, h⟩
        intro z hz
        rcases List.mem_cons.mp hz with rfl | hz2
        · exact le_of_lt hp
        · exact le_trans (hy z hz2) (le_of_lt hp)
      · simp only [ParseTx.insertByPriority, if_neg hp]
        refine List.pairwise_cons.mpr ⟨?_, pairwise_insertByPriority r l hl⟩
        intro z hz
        rcases (mem_insertByPriority r z l).mp hz with rfl | hz2
        · exact le_of_not_lt hp
        · exact hy z hz2

theorem pairwise_sortByPriorityDesc :
    ∀ l : List ParseTx.Rule,
      (ParseTx.sortByPriorityDesc l).Pairwise (fun a b => b.priority ≤ a.priority)
  | [] => List.Pairwise.nil
  | x :: l => pairwise_insertByPriority x _ (pairwise_sortByPriorityDesc l)

theorem exists_find?_eq_some {α : Type} (p : α → Bool) (x : α) :
    ∀ l : List α, x ∈ l → p x = true → ∃ w, l.find? p = some w
  | [], hx, _ => absurd hx (List.not_mem_nil x)
  | a :: l, hx, hpx => by
      by_cases h : p a = true
      · exact ⟨a, List.find?_cons_of_pos l h⟩
      · rcases List.mem_cons.mp hx with rfl | hx2
        · exact absurd hpx h
        · rcases exists_find?_eq_some p x l hx2 hpx with ⟨w, hw⟩
          refine ⟨w, ?_⟩
          rw [List.find?_cons_of_neg l (by simpa using h)]
          exact hw

theorem find?_priority_max :
    ∀ l : List ParseTx.Rule, l.Pairwise (fun a b => b.priority ≤ a.priority) →
      ∀ (p : ParseTx.Rule → Bool) (w : ParseTx.Rule), l.find? p = some w →
        ∀ x ∈ l, p x = true → x.priority ≤ w.priority
  | [], _, p, w, hfind => by simp at hfind
  | a :: l, h, p, w, hfind => by
      rcases List.pairwise_cons.mp h with ⟨ha, hl⟩
      by_cases hpa : p a = true
      · rw [List.find?_cons_of_pos l hpa] at hfind
        injection hfind with hw
        subst hw
        intro x hx _
        rcases List.mem_cons.mp hx with rfl | hx2
        · exact le_refl _
        · exact ha x hx2
      · rw [List.find?_cons_of_neg l (by simpa using hpa)] at hfind
        intro x hx hpx
        rcases List.mem_cons.mp hx with rfl | hx2
        · exact absurd hpx hpa
        · exact find?_priority_max l hl p w hfind x hx2 hpx

theorem handleEdit_length (f : Preview.TxField) (v : Preview.FieldTy f) :
    ∀ (buffer : List Preview.Transaction) (i : Nat),
      (Preview.handleEdit buffer i f v).length = buffer.length
  | [], _ => rfl
  | _ :: _, 0 => rfl
  | t :: rest, n + 1 => by
      simp only [Preview.handleEdit, List.length_cons]
      rw [handleEdit_length f v rest n]

theorem handleEdit_get?_ne (f : Preview.TxField) (v : Preview.FieldTy f) :
    ∀ (buffer : List Preview.Transaction) (i j : Nat), j ≠ i →
      (Preview.handleEdit buffer i f v).get? j = buffer.get? j
  | [], _, _, _ => rfl
  | _ :: _, 0, 0, h => absurd rfl h
  | _ :: _, 0, _ + 1, _ => by simp [Preview.handleEdit]
  | _ :: _, _ + 1, 0, _ => by simp [Preview.handleEdit]
  | t :: rest, i + 1, j + 1, h => by
      simp only [Preview.handleEdit, List.get?_cons_succ]
      exact handleEdit_get?_ne f v rest i j (fun e => h (by rw [e]))

theorem handleEdit_get?_eq (f : Preview.TxField) (v : Preview.FieldTy f) :
    ∀ (buffer : List Preview.Transaction) (i : Nat) (t : Preview.Transaction),
      buffer.get? i = some t →
      (Preview.handleEdit buffer i f v).get? i = some (Preview.setField t f v)
  | [], i, t, h => by simp at h
  | a :: rest, 0, t, h => by
      rw [List.get?_cons_zero] at h
      injection h with h
      subst h
      rfl
  | a :: rest, i + 1, t, h => by
      rw [List.get?_cons_succ] at h
      simp only [Preview.handleEdit, List.get?_cons_succ]
      exact handleEdit_get?_eq f v rest i t h

theorem getField_setField_eq (t : Preview.Transaction) (f : Preview.TxField)
    (v : Preview.FieldTy f) : Preview.getField (Preview.setField t f v) f = v := by
  cases f <;> rfl

theorem getField_setField_ne (t : Preview.Transaction) (f g : Preview.TxField)
    (v : Preview.FieldTy f) (h : g ≠ f) :
    Preview.getField (Preview.setField t f v) g = Preview.getField t g := by
  cases f <;> cases g <;> first | rfl | exact absurd rfl h

theorem enumFrom_filter_lt (j : Nat) :
    ∀ (l : List Preview.Transaction) (n : Nat), j < n →
      ((List.enumFrom n l).filter (fun p => p.1 != j)).map Prod.snd = l
  | [], _, _ => rfl
  | a :: l, n, h => by
      have hb : (n != j) = true := by
        simp only [bne_iff_ne, ne_eq]
        omega
      simp only [List.enumFrom, List.filter_cons, hb, if_pos, List.map_cons]
      rw [enumFrom_filter_lt j l (n + 1) (Nat.lt_succ_of_lt h)]

theorem enumFrom_filter_remove :
    ∀ (l : List Preview.Transaction) (i n : Nat),
      ((List.enumFrom n l).filter (fun p => p.1 != n + i)).map Prod.snd
        = l.take i ++ l.drop (i + 1)
  | [], i, n => by simp
  | a :: l, 0, n => by
      simp only [Nat.add_zero, List.enumFrom, List.filter_cons, bne_self_eq_false,
        Bool.false_eq_true, if_false, List.take_zero, List.drop_succ_cons, List.drop_zero,
        List.nil_append]
      exact enumFrom_filter_lt n l (n + 1) (Nat.lt_succ_self n)
  | a :: l, i + 1, n => by
      have hb : (n != n + (i + 1)) = true := by
        simp only [bne_iff_ne, ne_eq]
        omega
      simp only [List.enumFrom, List.filter_cons, hb, if_pos, List.map_cons,
        List.take_succ_cons, List.drop_succ_cons, List.cons_append]
      have := enumFrom_filter_remove l i (n + 1)
      simp only [Nat.add_succ, Nat.succ_add] at this ⊢
      rw [this]

theorem handleRemove_eq_take_drop (buffer : List Preview.Transaction) (i : Nat) :
    Preview.handleRemove buffer i = buffer.take i ++ buffer.drop (i + 1) := by
  have h := enumFrom_filter_remove buffer i 0
  simp only [Nat.zero_add] at h
  simpa [Preview.handleRemove, List.enum] using h

theorem extractRow_nonneg (today : String) (m : ParseTx.Mapping) (l : String)
    (c : ParseTx.CandidateTx) (h : ParseTx.extractRow today m l = some c) :
    0 ≤ c.monto_original := by
  simp only [ParseTx.extractRow] at h
  rcases hp : jsParseFloat (cleanAmount
      (jsOr (ParseTx.lookupField (ParseTx.parseLine l m.separator) m.columnMapping
        "monto" "2") "0")) with _ | q
  · rw [hp] at h
    exact Option.noConfusion h
  · rw [hp] at h
    injection h with h
    rw [← h]
    exact abs_nonneg q

theorem processRow_monto (today : String) (m : ParseTx.Mapping) (stored : List ParseTx.Rule)
    (ai : String → ParseTx.AiOutcome) (l : String) (t : ParseTx.TransactionData)
    (h : ParseTx.processRow today m stored ai l = some t) :
    ∃ c, ParseTx.extractRow today m l = some c ∧ t.monto_original = c.monto_original := by
  unfold ParseTx.processRow at h
  rcases hext : ParseTx.extractRow today m l with _ | c
  · simp only [hext] at h
    exact Option.noConfusion h
  · simp only [hext] at h
    rcases hcl : ParseTx.classifyTransaction c.descripcion stored (ai c.descripcion)
      with e | res
    · simp only [hcl] at h
      exact Option.noConfusion h
    · simp only [hcl] at h
      injection h with h
      exact ⟨c, rfl, by rw [← h]⟩

/-!
Claim theorems.
-/

/-- C1 (amended): in the parse-transactions extractor, provided the per-row external
classification never throws (no ok-but-malformed AI body), an input whose data lines
(after the header) are all well-formed yields exactly one transaction per data line, in
input order; and a data line whose amount parses to NaN is skipped while every line
before and after it is still processed.  (In the process-transactions path a CSV line
with a non-numeric amount is not skipped — see the counterexample.) -/
theorem claim1_extraction_count_order_skip (today : String) (m : ParseTx.Mapping)
    (stored : List ParseTx.Rule) (ai : String → ParseTx.AiOutcome) (content : String)
    (hai : ∀ d, ai d ≠ ParseTx.AiOutcome.okMalformed) :
    ((∀ l ∈ ParseTx.dataLines m content, (ParseTx.extractRow today m l).isSome = true) →
       List.map some (ParseTx.parseTransactions today m stored ai content)
         = List.map (ParseTx.processRow today m stored ai) (ParseTx.dataLines m content) ∧
       (ParseTx.parseTransactions today m stored ai content).length
         = (ParseTx.dataLines m content).length) ∧
    (∀ L1 bad L2, ParseTx.dataLines m content = L1 ++ bad :: L2 →
       ParseTx.extractRow today m bad = none →
       ParseTx.parseTransactions today m stored ai content
         = L1.filterMap (ParseTx.processRow today m stored ai)
           ++ L2.filterMap (ParseTx.processRow today m stored ai)) := by
  constructor
  · intro hwf
    have hs : ∀ l ∈ ParseTx.dataLines m content,
        (ParseTx.processRow today m stored ai l).isSome = true :=
      fun l hl => processRow_isSome today m stored ai l hai (hwf l hl)
    have hmap := filterMap_map_some_of_isSome (ParseTx.processRow today m stored ai)
      (ParseTx.dataLines m content) hs
    refine ⟨hmap, ?_⟩
    have hlen := congrArg List.length hmap
    simpa [ParseTx.parseTransactions] using hlen
  · intro L1 bad L2 hsplit hbad
    unfold ParseTx.parseTransactions
    rw [hsplit, List.filterMap_append]
    congr 1
    rw [List.filterMap_cons]
    rw [processRow_eq_none today m stored ai bad hbad]

/-- C1 counterexample: in the process-transactions ingestion path, the CSV line
`2025-01-05,Pago,abc,COP,in` has a non-numeric amount, yet it is not skipped: the run
emits one transaction, whose amount is NaN, contradicting the claim that such a line is
skipped. -/
theorem claim1_counterexample :
    (ProcessTx.processTransactions "2025-01-01" (fun _ => none)
        "fecha,descripcion,monto,moneda,tipo\n2025-01-05,Pago,abc,COP,in"
        "x.csv" "ACC" "U").length = 1 ∧
    (ProcessTx.processTransactions "2025-01-01" (fun _ => none)
        "fecha,descripcion,monto,moneda,tipo\n2025-01-05,Pago,abc,COP,in"
        "x.csv" "ACC" "U").map (fun t => t.monto_original) = [none] :=
  ⟨by decide, by decide⟩

/-- C1 witness: the amended theorem applied to a concrete header-plus-one-row file (all
lines well-formed) and to a concrete file whose middle data line has the non-numeric
amount `xx`. -/
theorem claim1_witness :
    ((∀ l ∈ ParseTx.dataLines mapA "h\n2025-01-05,Pago,100,COP,in",
        (ParseTx.extractRow "2025-01-01" mapA l).isSome = true) ∧
     (List.map some (ParseTx.parseTransactions "2025-01-01" mapA [] aiQuiet
          "h\n2025-01-05,Pago,100,COP,in")
        = List.map (ParseTx.processRow "2025-01-01" mapA [] aiQuiet)
            (ParseTx.dataLines mapA "h\n2025-01-05,Pago,100,COP,in") ∧
      (ParseTx.parseTransactions "2025-01-01" mapA [] aiQuiet
          "h\n2025-01-05,Pago,100,COP,in").length
        = (ParseTx.dataLines mapA "h\n2025-01-05,Pago,100,COP,in").length)) ∧
    (ParseTx.extractRow "2025-01-01" mapA "a,b,xx,COP,in" = none ∧
     ParseTx.parseTransactions "2025-01-01" mapA [] aiQuiet
         "h\na,b,xx,COP,in\n2025-01-05,Pago,100,COP,in"
       = List.filterMap (ParseTx.processRow "2025-01-01" mapA [] aiQuiet) []
         ++ List.filterMap (ParseTx.processRow "2025-01-01" mapA [] aiQuiet)
              ["2025-01-05,Pago,100,COP,in"]) := by
  refine ⟨⟨by decide, ?_⟩, by decide, ?_⟩
  · exact (claim1_extraction_count_order_skip "2025-01-01" mapA [] aiQuiet
      "h\n2025-01-05,Pago,100,COP,in" (fun d h => ParseTx.AiOutcome.noConfusion h)).1 (by decide)
  · exact (claim1_extraction_count_order_skip "2025-01-01" mapA [] aiQuiet
      "h\na,b,xx,COP,in\n2025-01-05,Pago,100,COP,in" (fun d h => ParseTx.AiOutcome.noConfusion h)).2
      [] "a,b,xx,COP,in" ["2025-01-05,Pago,100,COP,in"] (by decide) (by decide)

theorem rateFor_COP : rateFor "COP" = 1 := rfl

/-- C2 (amended): both normalization sites compute the reporting amount as the exact
product of the stored amount and the rate, with no rounding to minor units:
`monto_cop = monto_original * FX_RATES[moneda]` in process-transactions (absolute
values taken on both) and in the preview commit mapping; and when the currency is the
reporting currency COP the rate is 1, the reporting amount equals the stored original
amount, and no conversion note is attached. -/
theorem claim2_exact_conversion (today : String) (raw : ProcessTx.RawData)
    (cuenta userId : String) (pt : Preview.Transaction) (accName : Option String)
    (accId uid : String) :
    ((ProcessTx.normalizeTransaction today raw cuenta userId).monto_cop
       = (ProcessTx.normalizeTransaction today raw cuenta userId).monto_original.map
           (fun q => q * rateFor (ProcessTx.normalizeTransaction today raw cuenta userId).moneda)) ∧
    ((ProcessTx.normalizeTransaction today raw cuenta userId).moneda = "COP" →
       (ProcessTx.normalizeTransaction today raw cuenta userId).monto_cop
         = (ProcessTx.normalizeTransaction today raw cuenta userId).monto_original ∧
       (ProcessTx.normalizeTransaction today raw cuenta userId).notas = none) ∧
    ((Preview.dbTransaction accName accId uid pt).monto_cop
       = pt.monto_original.map (fun q => q * rateFor pt.moneda)) ∧
    (pt.moneda = "COP" →
       (Preview.dbTransaction accName accId uid pt).monto_cop = pt.monto_original ∧
       (Preview.dbTransaction accName accId uid pt).notas = none) := by
  refine ⟨?_, ?_, rfl, ?_⟩
  · rcases hp : jsParseFloat (jsOr raw.monto_original (jsOr raw.monto "0")) with _ | q
    · simp [ProcessTx.normalizeTransaction, hp]
    · simp only [ProcessTx.normalizeTransaction, hp, Option.map_some']
      rw [abs_mul, abs_of_pos (rateFor_pos _)]
  · intro hC
    simp only [ProcessTx.normalizeTransaction] at hC
    constructor
    · rcases hp : jsParseFloat (jsOr raw.monto_original (jsOr raw.monto "0")) with _ | q
      · simp [ProcessTx.normalizeTransaction, hp]
      · simp only [ProcessTx.normalizeTransaction, hp, Option.map_some']
        rw [hC, rateFor_COP, mul_one]
    · simp only [ProcessTx.normalizeTransaction, hC]
      simp
  · intro hC
    constructor
    · rcases hp : pt.monto_original with _ | q
      · simp [Preview.dbTransaction, hp]
      · simp only [Preview.dbTransaction, hp, Option.map_some']
        rw [hC, rateFor_COP, mul_one]
    · simp only [Preview.dbTransaction, hC]
      simp

/-- C2 counterexample: for the CSV row `2025-01-05,Pago,0.125,USD,in` the
process-transactions normalizer stores `monto_cop = 0.125 × 4100 = 512.5`, which is not
equal to `round(0.125 × 4100) = 513`: the reporting amount is not rounded to zero
decimal places as the claim states. -/
theorem claim2_counterexample :
    (ProcessTx.normalizeTransaction "2025-01-01"
        (ProcessTx.rawFromCsvFields (ProcessTx.parseCSVLine "2025-01-05,Pago,0.125,USD,in"))
        "ACC" "U").monto_cop = some (1025 / 2 : ℚ) ∧
    (round ((1025 : ℚ) / 2) : ℚ) ≠ (1025 : ℚ) / 2 := by
  constructor
  · have h : (ProcessTx.normalizeTransaction "2025-01-01"
        (ProcessTx.rawFromCsvFields (ProcessTx.parseCSVLine "2025-01-05,Pago,0.125,USD,in"))
        "ACC" "U").monto_cop
        = some (|((1 : ℚ) * ((digitsVal ['0'] : ℚ)
            + (digitsVal ['1', '2', '5'] : ℚ) / (10 : ℚ) ^ (3 : Nat))) * rateFor "USD"|) := rfl
    rw [h]
    have h1 : digitsVal ['0'] = 0 := rfl
    have h2 : digitsVal ['1', '2', '5'] = 125 := rfl
    have h3 : rateFor "USD" = 4100 := rfl
    rw [h1, h2, h3]
    norm_num
  · norm_num [round_eq]

/-- C2 witness: the amended theorem applied to the COP row `2025-01-05,Pago,100,COP,in`
and to the COP preview row `txA`, with the currency hypotheses discharged by
computation. -/
theorem claim2_witness :
    ((ProcessTx.normalizeTransaction "2025-01-01"
        (ProcessTx.rawFromCsvFields (ProcessTx.parseCSVLine "2025-01-05,Pago,100,COP,in"))
        "ACC" "U").moneda = "COP") ∧
    ((ProcessTx.normalizeTransaction "2025-01-01"
        (ProcessTx.rawFromCsvFields (ProcessTx.parseCSVLine "2025-01-05,Pago,100,COP,in"))
        "ACC" "U").monto_cop
      = (ProcessTx.normalizeTransaction "2025-01-01"
        (ProcessTx.rawFromCsvFields (ProcessTx.parseCSVLine "2025-01-05,Pago,100,COP,in"))
        "ACC" "U").monto_original ∧
     (ProcessTx.normalizeTransaction "2025-01-01"
        (ProcessTx.rawFromCsvFields (ProcessTx.parseCSVLine "2025-01-05,Pago,100,COP,in"))
        "ACC" "U").notas = none) ∧
    ((Preview.dbTransaction (some "Main") "A1" "U1" txA).monto_cop
       = txA.monto_original ∧
     (Preview.dbTransaction (some "Main") "A1" "U1" txA).notas = none) := by
  refine ⟨by decide, ?_, ?_⟩
  · exact (claim2_exact_conversion "2025-01-01"
      (ProcessTx.rawFromCsvFields (ProcessTx.parseCSVLine "2025-01-05,Pago,100,COP,in"))
      "ACC" "U" txA (some "Main") "A1" "U1").2.1 (by decide)
  · exact (claim2_exact_conversion "2025-01-01"
      (ProcessTx.rawFromCsvFields (ProcessTx.parseCSVLine "2025-01-05,Pago,100,COP,in"))
      "ACC" "U" txA (some "Main") "A1" "U1").2.2.2 (by decide)

/-- C3: every transaction produced by extraction stores a non-negative original amount,
whatever the sign representation in the input: every row emitted by the
parse-transactions loop has `monto_original ≥ 0`, and whenever the
process-transactions normalizer stores a numeric (non-NaN) `monto_original` it is
non-negative; sign information is carried in the direction field instead. -/
theorem claim3_amount_nonneg (today : String) (m : ParseTx.Mapping)
    (stored : List ParseTx.Rule) (ai : String → ParseTx.AiOutcome) (content : String)
    (t : ParseTx.TransactionData) (raw : ProcessTx.RawData) (cuenta userId : String)
    (q : ℚ)
    (h1 : t ∈ ParseTx.parseTransactions today m stored ai content)
    (h2 : (ProcessTx.normalizeTransaction today raw cuenta userId).monto_original
            = some q) :
    0 ≤ t.monto_original ∧ 0 ≤ q := by
  constructor
  · unfold ParseTx.parseTransactions at h1
    rcases List.mem_filterMap.mp h1 with ⟨l, _, hpr⟩
    rcases processRow_monto today m stored ai l t hpr with ⟨c, hext, hmon⟩
    rw [hmon]
    exact extractRow_nonneg today m l c hext
  · simp only [ProcessTx.normalizeTransaction] at h2
    rcases Option.map_eq_some'.mp h2 with ⟨p, _, hpq⟩
    rw [← hpq]
    exact abs_nonneg p

/-- C3 witness: the theorem applied to the concrete row `2025-01-05,Pago,100,COP,in`
through both ingestion paths; the extracted transaction is `tx100`, whose stored amount
is the absolute value of the parsed `100`. -/
theorem claim3_witness :
    0 ≤ tx100.monto_original ∧ 0 ≤ |v100| := by
  refine claim3_amount_nonneg "2025-01-01" mapA [] aiQuiet
    "h\n2025-01-05,Pago,100,COP,in" tx100
    (ProcessTx.rawFromCsvFields (ProcessTx.parseCSVLine "2025-01-05,Pago,100,COP,in"))
    "ACC" "U" |v100| ?_ ?_
  · rw [show ParseTx.parseTransactions "2025-01-01" mapA [] aiQuiet
        "h\n2025-01-05,Pago,100,COP,in" = [tx100] from rfl]
    exact List.mem_singleton.mpr rfl
  · rfl

/-- C4: classification evaluates the active stored rules in descending priority order
with case-insensitive substring matching of the keyword against the description, and
the first match returns immediately with that rule's category and counterparty
(`contrapartida || "UNKNOWN"`), without consulting the AI tier; in particular, whenever
two active rules both match, the returned rule matches, is active, and has priority
strictly above the lower-priority one, whatever the insertion order of the stored
list. -/
theorem claim4_rule_precedence (stored : List ParseTx.Rule) (descripcion : String)
    (r1 r2 : ParseTx.Rule) (ai : ParseTx.AiOutcome)
    (h1 : r1 ∈ stored) (h1a : r1.active = true)
    (h1m : ParseTx.ruleMatches descripcion r1 = true)
    (h2 : r2 ∈ stored) (h2a : r2.active = true)
    (h2m : ParseTx.ruleMatches descripcion r2 = true)
    (hp : r2.priority < r1.priority) :
    ∃ w, w ∈ stored ∧ w.active = true ∧ ParseTx.ruleMatches descripcion w = true ∧
      r2.priority < w.priority ∧
      ParseTx.classifyTransaction descripcion stored ai
        = Except.ok (w.categoria, jsOr w.contrapartida "UNKNOWN") := by
  have hmem1 : r1 ∈ ParseTx.fetchRules stored := by
    unfold ParseTx.fetchRules
    exact (mem_sortByPriorityDesc r1 _).mpr (List.mem_filter.mpr ⟨h1, h1a⟩)
  rcases exists_find?_eq_some (ParseTx.ruleMatches descripcion) r1 _ hmem1 h1m
    with ⟨w, hw⟩
  have hwmem : w ∈ ParseTx.fetchRules stored := List.mem_of_find?_eq_some hw
  have hwmatch : ParseTx.ruleMatches descripcion w = true := List.find?_some hw
  have hwfilter : w ∈ stored.filter (fun r => r.active) := by
    have := hwmem
    unfold ParseTx.fetchRules at this
    exact (mem_sortByPriorityDesc w _).mp this
  have hwstored : w ∈ stored := (List.mem_filter.mp hwfilter).1
  have hwactive : w.active = true := (List.mem_filter.mp hwfilter).2
  have hpair : (ParseTx.fetchRules stored).Pairwise (fun a b => b.priority ≤ a.priority) := by
    unfold ParseTx.fetchRules
    exact pairwise_sortByPriorityDesc _
  have hmax := find?_priority_max (ParseTx.fetchRules stored) hpair
    (ParseTx.ruleMatches descripcion) w hw r1 hmem1 h1m
  have hne : ParseTx.fetchRules stored ≠ [] := by
    intro e
    rw [e] at hmem1
    exact List.not_mem_nil r1 hmem1
  have hcls : ParseTx.classifyByRules descripcion (ParseTx.fetchRules stored)
      = some (w.categoria, jsOr w.contrapartida "UNKNOWN") := by
    unfold ParseTx.classifyByRules
    rw [if_neg (by simp [List.isEmpty_iff, hne])]
    rw [hw]
    rfl
  refine ⟨w, hwstored, hwactive, hwmatch, lt_of_lt_of_le hp hmax, ?_⟩
  unfold ParseTx.classifyTransaction
  rw [hcls]

/-- C4 witness: the theorem applied to the stored list `[ruleLo, ruleHi]` (low priority
inserted first) and the description `PAGO FACEBOOK`, which both rules match; the
returned rule's priority is strictly above `ruleLo`'s. -/
theorem claim4_witness :
    ∃ w, w ∈ [ruleLo, ruleHi] ∧ w.active = true ∧
      ParseTx.ruleMatches "PAGO FACEBOOK" w = true ∧
      ruleLo.priority < w.priority ∧
      ParseTx.classifyTransaction "PAGO FACEBOOK" [ruleLo, ruleHi] ParseTx.AiOutcome.notOk
        = Except.ok (w.categoria, jsOr w.contrapartida "UNKNOWN") :=
  claim4_rule_precedence [ruleLo, ruleHi] "PAGO FACEBOOK" ruleHi ruleLo
    ParseTx.AiOutcome.notOk (by decide) (by decide) (by decide) (by decide) (by decide)
    (by decide) (by decide)

/-- C5 counterexample: with no user rules, the description `COBRO DE FLETE` — which the
built-in static table maps to FULFILLMENT — is classified by the parse-transactions
classifier as the terminal `{OTHER, UNKNOWN}` when the AI response is not ok (no
static-table fallback tier exists there), and an ok-but-malformed AI body makes the
classifier throw rather than fall back; both contradict the claimed three-tier,
never-failing fallback. -/
theorem claim5_counterexample :
    ParseTx.classifyTransaction "COBRO DE FLETE" [] ParseTx.AiOutcome.notOk
      = Except.ok ("OTHER", "UNKNOWN") ∧
    ProcessTx.classifyTransaction "COBRO DE FLETE" = ("FULFILLMENT", "COORDINADORA") ∧
    ParseTx.classifyTransaction "COBRO DE FLETE" [] ParseTx.AiOutcome.okMalformed
      = Except.error () :=
  ⟨rfl, by decide, rfl⟩

/-- C5 (amended): in the parse-transactions classifier, when no user rule matches, a
non-ok AI response yields the terminal `{OTHER, UNKNOWN}` directly — the built-in
static keyword table is never consulted there — and an ok-but-malformed AI body raises
an error (caught by the per-row handler, which drops the row); classification is total
only when the AI body is not malformed.  The static keyword table lives solely in the
separate process-transactions classifier, which is total: first static keyword match,
else the terminal `{OTHER, UNKNOWN}`. -/
theorem claim5_fallback_shape (descripcion : String) (stored : List ParseTx.Rule)
    (ai : ParseTx.AiOutcome) :
    (ai ≠ ParseTx.AiOutcome.okMalformed →
       ∃ res, ParseTx.classifyTransaction descripcion stored ai = Except.ok res) ∧
    (ParseTx.classifyByRules descripcion (ParseTx.fetchRules stored) = none →
       ParseTx.classifyTransaction descripcion stored ParseTx.AiOutcome.notOk
         = Except.ok ("OTHER", "UNKNOWN") ∧
       ParseTx.classifyTransaction descripcion stored ParseTx.AiOutcome.okMalformed
         = Except.error ()) ∧
    (ProcessTx.CLASSIFICATION_RULES.find?
        (fun e => strIncludes (upperStr descripcion) e.1) = none →
       ProcessTx.classifyTransaction descripcion = ("OTHER", "UNKNOWN")) := by
  refine ⟨classify_ok_of_not_malformed descripcion stored ai, ?_, ?_⟩
  · intro h
    constructor <;> (unfold ParseTx.classifyTransaction; rw [h])
  · intro h
    unfold ProcessTx.classifyTransaction
    rw [h]

/-- C5 witness: the amended theorem applied to the description `zzz` (matched by no user
rule and no static keyword), the empty stored rule list and the non-ok AI outcome. -/
theorem claim5_witness :
    (∃ res, ParseTx.classifyTransaction "zzz" [] ParseTx.AiOutcome.notOk
       = Except.ok res) ∧
    (ParseTx.classifyTransaction "zzz" [] ParseTx.AiOutcome.notOk
       = Except.ok ("OTHER", "UNKNOWN") ∧
     ParseTx.classifyTransaction "zzz" [] ParseTx.AiOutcome.okMalformed
       = Except.error ()) ∧
    ProcessTx.classifyTransaction "zzz" = ("OTHER", "UNKNOWN") := by
  refine ⟨?_, ?_, ?_⟩
  · exact (claim5_fallback_shape "zzz" [] ParseTx.AiOutcome.notOk).1
      (fun h => ParseTx.AiOutcome.noConfusion h)
  · exact (claim5_fallback_shape "zzz" [] ParseTx.AiOutcome.notOk).2.1 (by decide)
  · exact (claim5_fallback_shape "zzz" [] ParseTx.AiOutcome.notOk).2.2 (by decide)

/-- C6: when a transaction's currency is absent from the FX rate table, the
process-transactions normalizer uses rate 1, so the stored reporting amount equals the
stored original amount; the currency then necessarily differs from the reporting
currency COP, and a conversion note is still attached, recording the fallback rate 1,
so the unresolved rate is visible to the reviewer. -/
theorem claim6_unknown_currency (today : String) (raw : ProcessTx.RawData)
    (cuenta userId : String)
    (h : FX_RATES (ProcessTx.normalizeTransaction today raw cuenta userId).moneda
           = none) :
    (ProcessTx.normalizeTransaction today raw cuenta userId).monto_cop
      = (ProcessTx.normalizeTransaction today raw cuenta userId).monto_original ∧
    (ProcessTx.normalizeTransaction today raw cuenta userId).moneda ≠ "COP" ∧
    (ProcessTx.normalizeTransaction today raw cuenta userId).notas
      = some ("FX: " ++ (ProcessTx.normalizeTransaction today raw cuenta userId).moneda
          ++ " → COP @ 1") := by
  simp only [ProcessTx.normalizeTransaction] at h ⊢
  have hC : jsOr raw.moneda "COP" ≠ "COP" := by
    intro e
    rw [e] at h
    exact Option.noConfusion h
  have hR : rateFor (jsOr raw.moneda "COP") = 1 := by
    unfold rateFor
    rw [h]
  refine ⟨?_, hC, ?_⟩
  · rcases hp : jsParseFloat (jsOr raw.monto_original (jsOr raw.monto "0")) with _ | q
    · simp [hp]
    · simp only [hp, Option.map_some']
      rw [hR, mul_one]
  · rw [if_pos hC, hR]
    rw [show (toString (1 : ℚ)) = "1" from rfl, String.append_assoc]
    rw [show (" → COP @ " ++ "1" : String) = " → COP @ 1" from rfl]

/-- C6 witness: the theorem applied to the CSV row `2025-01-05,Pago,100,XYZ,in`, whose
currency `XYZ` has no entry in the rate table. -/
theorem claim6_witness :
    (ProcessTx.normalizeTransaction "2025-01-01"
        (ProcessTx.rawFromCsvFields (ProcessTx.parseCSVLine "2025-01-05,Pago,100,XYZ,in"))
        "ACC" "U").monto_cop
      = (ProcessTx.normalizeTransaction "2025-01-01"
        (ProcessTx.rawFromCsvFields (ProcessTx.parseCSVLine "2025-01-05,Pago,100,XYZ,in"))
        "ACC" "U").monto_original ∧
    (ProcessTx.normalizeTransaction "2025-01-01"
        (ProcessTx.rawFromCsvFields (ProcessTx.parseCSVLine "2025-01-05,Pago,100,XYZ,in"))
        "ACC" "U").moneda ≠ "COP" ∧
    (ProcessTx.normalizeTransaction "2025-01-01"
        (ProcessTx.rawFromCsvFields (ProcessTx.parseCSVLine "2025-01-05,Pago,100,XYZ,in"))
        "ACC" "U").notas
      = some ("FX: " ++ (ProcessTx.normalizeTransaction "2025-01-01"
          (ProcessTx.rawFromCsvFields (ProcessTx.parseCSVLine "2025-01-05,Pago,100,XYZ,in"))
          "ACC" "U").moneda ++ " → COP @ 1") :=
  claim6_unknown_currency "2025-01-01"
    (ProcessTx.rawFromCsvFields (ProcessTx.parseCSVLine "2025-01-05,Pago,100,XYZ,in"))
    "ACC" "U" (by decide)

/-- C7: when the vendor-known Dropi extractor finds zero transactions matching the fixed
pattern, the whole file is rejected with an error and no partial result is produced:
an empty match set always yields an error, and a successful result is never the empty
list. -/
theorem claim7_empty_match_rejected (content : String) :
    (Dropi.dropiTransactions content = [] →
       ∃ msg, Dropi.parseDropiPdf content = Except.error msg) ∧
    Dropi.parseDropiPdf content ≠ Except.ok ([] : List Dropi.DropiTx) := by
  constructor
  · intro h
    unfold Dropi.parseDropiPdf
    by_cases hd : Dropi.isDropi content
    · rw [if_neg (by simp [hd])]
      rw [h]
      exact ⟨"No se encontraron transacciones en el formato esperado de Dropi", by simp⟩
    · rw [if_pos (by simp [hd])]
      exact ⟨"Este no parece ser un extracto de Dropi", rfl⟩
  · intro hok
    unfold Dropi.parseDropiPdf at hok
    by_cases hd : Dropi.isDropi content
    · rw [if_neg (by simp [hd])] at hok
      by_cases hz : (Dropi.dropiTransactions content).length = 0
      · rw [if_pos hz] at hok
        exact Except.noConfusion hok
      · rw [if_neg hz] at hok
        injection hok with hok
        rw [hok] at hz
        exact hz rfl
    · rw [if_pos (by simp [hd])] at hok
      exact Except.noConfusion hok

/-- C7 witness: the theorem applied to the content `dropi` (vendor marker present, zero
pattern matches), which is rejected with an error. -/
theorem claim7_witness :
    (∃ msg, Dropi.parseDropiPdf "dropi" = Except.error msg) ∧
    Dropi.parseDropiPdf "dropi" ≠ Except.ok ([] : List Dropi.DropiTx) :=
  ⟨(claim7_empty_match_rejected "dropi").1 (by decide),
   (claim7_empty_match_rejected "dropi").2⟩

/-- C8: committing the review buffer is rejected before any store call when the buffer
is empty — a disabled save button issues no store traffic at all — and any bulk insert
that is issued carries exactly the mapped non-empty buffer while the session is not
already saving; moreover the preview (hence its save button) is only rendered when a
parse result exists and a destination account is selected. -/
theorem claim8_commit_guard (loading : Bool) (buffer : List Preview.Transaction)
    (accountName : Option String) (accountId userId : String)
    (parsed : Option (List Preview.Transaction)) :
    (buffer = [] →
       Preview.clickSave loading buffer accountName accountId userId = []) ∧
    (∀ rows, Preview.StoreCall.insertRows rows
         ∈ Preview.clickSave loading buffer accountName accountId userId →
       buffer ≠ [] ∧ loading = false ∧
       rows = buffer.map (Preview.dbTransaction accountName accountId userId)) ∧
    (Preview.previewShown parsed accountId = true →
       accountId ≠ "" ∧ parsed.isSome = true) := by
  refine ⟨?_, ?_, ?_⟩
  · intro h
    subst h
    simp [Preview.clickSave, Preview.saveDisabled]
  · intro rows hmem
    unfold Preview.clickSave at hmem
    by_cases hd : Preview.saveDisabled loading buffer = true
    · rw [if_pos hd] at hmem
      exact absurd hmem (List.not_mem_nil _)
    · rw [if_neg hd] at hmem
      have hparts : loading = false ∧ (buffer.length == 0) = false := by
        unfold Preview.saveDisabled at hd
        rcases loading <;> rcases hb : (buffer.length == 0) <;> simp_all
      refine ⟨?_, hparts.1, ?_⟩
      · intro e
        subst e
        simp at hparts
      · unfold Preview.handleSaveCalls at hmem
        simp only [List.mem_cons, List.not_mem_nil, or_false] at hmem
        rcases hmem with h | h | h
        · exact Preview.StoreCall.noConfusion h
        · exact Preview.StoreCall.noConfusion h
        · injection h with h
  · intro h
    rcases parsed with _ | l
    · exact Bool.noConfusion h
    · refine ⟨?_, rfl⟩
      unfold Preview.previewShown at h
      exact of_decide_eq_true h

/-- C8 witness: the theorem applied to an empty buffer (no store calls issued) and to
the two-row buffer `[txA, txB]` with an account selected (the insert carries exactly the
mapped buffer). -/
theorem claim8_witness :
    Preview.clickSave false [] (some "Main") "A1" "U1" = [] ∧
    ([txA, txB] ≠ [] ∧ false = false ∧
      [txA, txB].map (Preview.dbTransaction (some "Main") "A1" "U1")
        = [txA, txB].map (Preview.dbTransaction (some "Main") "A1" "U1")) ∧
    ("A1" ≠ "" ∧ (some [txA, txB] : Option (List Preview.Transaction)).isSome = true) := by
  refine ⟨?_, ?_, ?_⟩
  · exact (claim8_commit_guard false [] (some "Main") "A1" "U1" none).1 rfl
  · exact (claim8_commit_guard false [txA, txB] (some "Main") "A1" "U1" none).2.1
      ([txA, txB].map (Preview.dbTransaction (some "Main") "A1" "U1"))
      (by simp [Preview.clickSave, Preview.saveDisabled, Preview.handleSaveCalls])
  · exact (claim8_commit_guard false [txA, txB] (some "Main") "A1" "U1"
      (some [txA, txB])).2.2 (by decide)

/-- C9: in the process-transactions path the header-skip decision depends only on the
uploaded file name: when the lowercased name ends in `.csv` the first non-blank line is
always dropped and every remaining line is normalized through the CSV branch (so a
headerless CSV loses its first transaction); when the name does not end in `.csv` no
line is dropped and lines flow through the JSON branch, with unparseable lines
skipped. -/
theorem claim9_header_by_name (today : String)
    (jsonParse : String → Option ProcessTx.RawData)
    (fileContent fileName cuenta userId : String) :
    (ProcessTx.csvName fileName = true →
       ProcessTx.processTransactions today jsonParse fileContent fileName cuenta userId
         = ((splitLines fileContent).drop 1).map (fun line =>
             ProcessTx.normalizeTransaction today
               (ProcessTx.rawFromCsvFields (ProcessTx.parseCSVLine line)) cuenta userId) ∧
       ∀ l0 rest, splitLines fileContent = l0 :: rest →
         (ProcessTx.processTransactions today jsonParse fileContent fileName cuenta
             userId).length = rest.length) ∧
    (ProcessTx.csvName fileName = false →
       ProcessTx.processTransactions today jsonParse fileContent fileName cuenta userId
         = (splitLines fileContent).filterMap (fun line =>
             (jsonParse line).map (fun raw =>
               ProcessTx.normalizeTransaction today raw cuenta userId))) := by
  constructor
  · intro hcsv
    have hmain : ProcessTx.processTransactions today jsonParse fileContent fileName
        cuenta userId
        = ((splitLines fileContent).drop 1).map (fun line =>
            ProcessTx.normalizeTransaction today
              (ProcessTx.rawFromCsvFields (ProcessTx.parseCSVLine line)) cuenta userId) := by
      unfold ProcessTx.processTransactions
      rw [if_pos hcsv]
      have hline : ∀ line, ProcessTx.processLine today jsonParse fileName cuenta userId line
          = some (ProcessTx.normalizeTransaction today
              (ProcessTx.rawFromCsvFields (ProcessTx.parseCSVLine line)) cuenta userId) := by
        intro line
        unfold ProcessTx.processLine
        rw [if_pos hcsv]
      calc ((splitLines fileContent).drop 1).filterMap
              (ProcessTx.processLine today jsonParse fileName cuenta userId)
          = ((splitLines fileContent).drop 1).filterMap (fun line =>
              some (ProcessTx.normalizeTransaction today
                (ProcessTx.rawFromCsvFields (ProcessTx.parseCSVLine line)) cuenta userId)) := by
            exact List.filterMap_congr (fun line _ => hline line)
        _ = ((splitLines fileContent).drop 1).map (fun line =>
              ProcessTx.normalizeTransaction today
                (ProcessTx.rawFromCsvFields (ProcessTx.parseCSVLine line)) cuenta userId) :=
            filterMap_some_comp _ _
    refine ⟨hmain, ?_⟩
    intro l0 rest hsplit
    rw [hmain, hsplit]
    simp
  · intro hcsv
    unfold ProcessTx.processTransactions
    rw [if_neg (by simp [hcsv])]
    simp only [List.drop_zero]
    refine List.filterMap_congr ?_
    intro line _
    unfold ProcessTx.processLine
    rw [if_neg (by simp [hcsv])]

/-- C9 witness: the theorem applied to a headerless two-row CSV named `DATA.CSV` (the
first row is dropped purely because of the name) and to the same content named
`data.json` with a failing JSON parser (no drop, all lines skipped by the JSON
branch). -/
theorem claim9_witness :
    (ProcessTx.processTransactions "2025-01-01" (fun _ => none)
        "2025-01-05,Pago,100,COP,in\n2025-01-06,Otro,200,COP,out" "DATA.CSV" "ACC" "U"
      = ((splitLines "2025-01-05,Pago,100,COP,in\n2025-01-06,Otro,200,COP,out").drop 1).map
          (fun line => ProcessTx.normalizeTransaction "2025-01-01"
            (ProcessTx.rawFromCsvFields (ProcessTx.parseCSVLine line)) "ACC" "U") ∧
     (ProcessTx.processTransactions "2025-01-01" (fun _ => none)
        "2025-01-05,Pago,100,COP,in\n2025-01-06,Otro,200,COP,out" "DATA.CSV" "ACC"
        "U").length = ["2025-01-06,Otro,200,COP,out"].length) ∧
    ProcessTx.processTransactions "2025-01-01" (fun _ => none)
        "2025-01-05,Pago,100,COP,in\n2025-01-06,Otro,200,COP,out" "data.json" "ACC" "U"
      = (splitLines "2025-01-05,Pago,100,COP,in\n2025-01-06,Otro,200,COP,out").filterMap
          (fun line => (none : Option ProcessTx.RawData).map
            (fun raw => ProcessTx.normalizeTransaction "2025-01-01" raw "ACC" "U")) := by
  constructor
  · have h := (claim9_header_by_name "2025-01-01" (fun _ => none)
      "2025-01-05,Pago,100,COP,in\n2025-01-06,Otro,200,COP,out" "DATA.CSV" "ACC" "U").1
      (by decide)
    exact ⟨h.1, h.2 "2025-01-05,Pago,100,COP,in" ["2025-01-06,Otro,200,COP,out"]
      (by decide)⟩
  · exact (claim9_header_by_name "2025-01-01" (fun _ => none)
      "2025-01-05,Pago,100,COP,in\n2025-01-06,Otro,200,COP,out" "data.json" "ACC" "U").2
      (by decide)

/-- C10: the review-buffer operations are frame-preserving: `handleEdit` keeps the
buffer length, leaves every other row untouched, and replaces only the named field of
the row at the edited index (every other field of that row keeps its value); and
`handleRemove` deletes exactly the row at the given index, preserving the relative
order of all remaining rows. -/
theorem claim10_buffer_frame (buffer : List Preview.Transaction) (i j : Nat)
    (f : Preview.TxField) (v : Preview.FieldTy f) (g : Preview.TxField)
    (t0 : Preview.Transaction) :
    ((Preview.handleEdit buffer i f v).length = buffer.length) ∧
    (j ≠ i → (Preview.handleEdit buffer i f v).get? j = buffer.get? j) ∧
    (∀ t, buffer.get? i = some t →
       (Preview.handleEdit buffer i f v).get? i = some (Preview.setField t f v)) ∧
    (Preview.getField (Preview.setField t0 f v) f = v) ∧
    (g ≠ f → Preview.getField (Preview.setField t0 f v) g = Preview.getField t0 g) ∧
    (Preview.handleRemove buffer i = buffer.take i ++ buffer.drop (i + 1)) :=
  ⟨handleEdit_length f v buffer i,
   handleEdit_get?_ne f v buffer i j,
   fun t => handleEdit_get?_eq f v buffer i t,
   getField_setField_eq t0 f v,
   getField_setField_ne t0 f g v,
   handleRemove_eq_take_drop buffer i⟩

/-- C10 witness: the theorem applied to the concrete buffer `[txA, txB]`, editing the
description of row 0 and removing row 0: row 1 is untouched, only the edited field of
row 0 changes, and removal keeps exactly the other row in order. -/
theorem claim10_witness :
    ((Preview.handleEdit [txA, txB] 0 Preview.TxField.descripcion "EDITED").length
       = [txA, txB].length) ∧
    ((Preview.handleEdit [txA, txB] 0 Preview.TxField.descripcion "EDITED").get? 1
       = [txA, txB].get? 1) ∧
    ((Preview.handleEdit [txA, txB] 0 Preview.TxField.descripcion "EDITED").get? 0
       = some (Preview.setField txA Preview.TxField.descripcion "EDITED")) ∧
    (Preview.getField (Preview.setField txA Preview.TxField.descripcion "EDITED")
       Preview.TxField.descripcion = "EDITED") ∧
    (Preview.getField (Preview.setField txA Preview.TxField.descripcion "EDITED")
       Preview.TxField.fecha = Preview.getField txA Preview.TxField.fecha) ∧
    (Preview.handleRemove [txA, txB] 0 = [txA, txB].take 0 ++ [txA, txB].drop 1) := by
  have h := claim10_buffer_frame [txA, txB] 0 1 Preview.TxField.descripcion "EDITED"
    Preview.TxField.fecha txA
  exact ⟨h.1, h.2.1 (by decide), h.2.2.1 txA (by decide), h.2.2.2.1,
    h.2.2.2.2.1 (by decide), h.2.2.2.2.2⟩
